import Mathlib

/-!
Shallow embedding of the `stepgen` stepper-motor ramp generator
(`src/lib.rs`) and verification of its specification.

All Rust `u32`/`u64` values are modelled as `Nat`.  Wherever a Rust
`u32` operation can wrap (multiplication, addition, subtraction, the
`as u32` cast), the embedding applies an explicit reduction modulo
`2^32` (`u32`, `u32sub`), matching release-mode wrapping semantics.
The `u64` intermediate computations in `set_acceleration`,
`set_target_speed` and `current_speed` cannot exceed `2^64`
(the operands are bounded by `2^48`/`2^62`), so they are written as
plain `Nat` arithmetic.
-/

/-- Reduction modulo `2^32`: the value of a Rust `u32` operation that
may wrap (`4294967296 = 2^32`). -/
def u32 (n : Nat) : Nat := n % 4294967296

/-- Wrapping `u32` subtraction `a - b` (two's complement), for
`a`, `b` arbitrary naturals reduced mod `2^32`. -/
def u32sub (a b : Nat) : Nat := (a % 4294967296 + 4294967296 - b % 4294967296) % 4294967296

/-- `const FASTEST_DELAY: u32 = 30;` — smallest delay the library accepts. -/
def FASTEST_DELAY : Nat := 30

/-- `enum Error` — error codes of the stepgen operations. -/
inductive Error where
  | TooSlow
  | TooFast
  | SpeedAccelerationNotSet
  deriving DecidableEq

/-- `type Result = core::result::Result<(), Error>` — outcome of a
configuration call. -/
inductive SgResult where
  | Ok : SgResult
  | Err : Error → SgResult
  deriving DecidableEq

/-- `struct Stepgen` — the ramp generator state. All fields are `u32`
in the source. -/
structure Stepgen where
  current_step : Nat
  speed : Nat
  delay : Nat
  slewing_delay : Nat
  ticks_per_second : Nat
  first_delay : Nat
  target_step : Nat
  target_delay : Nat
  deriving DecidableEq

/-- The `while q2 != 0` loop of `u64sqrt`, as recursion on a fuel
counter.  Starting from `q2 = 2^62` the loop body runs exactly 32
times (`q2` is quartered each pass), so fuel `32` reproduces the loop
exactly.  No `u64` operation in the loop can overflow (`xr < 2^32`
throughout, `q2 ≤ 2^62`, the subtraction is guarded). -/
def sqrtLoop : Nat → Nat → Nat → Nat → Nat × Nat
  | 0, x, xr, _ => (x, xr)
  | fuel + 1, x, xr, q2 =>
    if q2 = 0 then (x, xr)
    else if xr + q2 ≤ x then
      sqrtLoop fuel (x - (xr + q2)) (xr / 2 + q2) (q2 / 4)
    else
      sqrtLoop fuel x (xr / 2) (q2 / 4)

/-- `fn u64sqrt(x0: u64) -> u64` — digit-by-digit binary square root
with a final round-to-nearest adjustment (`if xr < x { xr + 1 }`). -/
def u64sqrt (x0 : Nat) : Nat :=
  let p := sqrtLoop 32 x0 0 (2 ^ 62)
  if p.2 < p.1 then p.2 + 1 else p.2

namespace Stepgen

/-- `Stepgen::new(ticks_per_second)`. -/
def new (ticks_per_second : Nat) : Stepgen :=
  { current_step := 0
    speed := 0
    delay := 0
    slewing_delay := 0
    ticks_per_second := ticks_per_second
    first_delay := 0
    target_step := 0
    target_delay := 0 }

/-- `Stepgen::set_acceleration`.  The `u64` computation of `c0long`
and `c0` cannot overflow (`2*676*676 << 40 < 2^60`;
`ticks_per_second * u64sqrt c0long < 2^32 * 2^30`), so it is plain
`Nat` arithmetic; the `as u32` cast and the `u32` shift are reduced
mod `2^32`.  Rust panics on `acceleration == 0` (division by zero);
theorems about this operation therefore assume a nonzero argument. -/
def set_acceleration (s : Stepgen) (acceleration : Nat) : Stepgen × SgResult :=
  let c0long : Nat := ((2 * 676 * 676) <<< 40) / acceleration
  let c0 : Nat := (s.ticks_per_second * u64sqrt c0long / 1000) >>> 8
  if c0 >>> 24 ≠ 0 then (s, .Err .TooSlow)
  else ({ s with first_delay := u32 ((c0 % 4294967296) <<< 8) }, .Ok)

/-- `Stepgen::set_target_step`. -/
def set_target_step (s : Stepgen) (target_step : Nat) : Stepgen × SgResult :=
  if s.target_delay = 0 ∨ s.first_delay = 0 then (s, .Err .SpeedAccelerationNotSet)
  else ({ s with target_step := target_step }, .Ok)

/-- `Stepgen::set_target_speed`.  `ticks_per_second << 16 < 2^48`
fits `u64`; the `as u32` cast and `u32` shift are reduced mod `2^32`. -/
def set_target_speed (s : Stepgen) (target_speed : Nat) : Stepgen × SgResult :=
  if target_speed = 0 then (s, .Err .TooSlow)
  else
    let delay : Nat := (s.ticks_per_second <<< 16) / target_speed
    if delay >>> 24 ≠ 0 then (s, .Err .TooSlow)
    else if delay ≤ FASTEST_DELAY * (1 <<< 8) then (s, .Err .TooFast)
    else ({ s with target_delay := u32 ((delay % 4294967296) <<< 8) }, .Ok)

/-- `Stepgen::current_speed` — speed estimate in 24.8 format. -/
def current_speed (s : Stepgen) : Nat :=
  let delay := if s.slewing_delay ≠ 0 then s.slewing_delay else s.delay
  let delay := delay >>> 8
  if delay ≠ 0 then u32 ((s.ticks_per_second <<< 16) / delay)
  else 0

/-- `Stepgen::speedup` — the acceleration recurrence.  `denom`, the
doubling, the addition and the subtraction are `u32` operations and
are reduced mod `2^32`. -/
def speedup (s : Stepgen) : Stepgen :=
  let denom := u32 (4 * s.speed + 1)
  { s with
      delay := u32sub s.delay (u32 (2 * s.delay + denom / 2) / denom)
      speed := u32 (s.speed + 1) }

/-- `Stepgen::slowdown` — the deceleration recurrence.  The decrement
of `speed` happens first; `denom` uses the decremented value. -/
def slowdown (s : Stepgen) : Stepgen :=
  let speed := u32sub s.speed 1
  let denom := u32sub (u32 (4 * speed)) 1
  { s with
      speed := speed
      delay := u32 (s.delay + u32 (2 * s.delay + denom / 2) / denom) }

/-- `Stepgen::next_delay` — produce the next state together with the
emitted value (`0` is the stop signal, otherwise a 16.8 delay).
`st` is the entry value of `current_step`, captured before the
increment, exactly as in the source. -/
def next_delay (s0 : Stepgen) : Stepgen × Nat :=
  let target_step := s0.target_step
  let target_delay := s0.target_delay
  let st := s0.current_step
  if target_step ≤ st ∧ s0.speed ≤ 1 then
    ({ s0 with speed := 0 }, 0)
  else
    let s1 := if s0.slewing_delay ≠ 0 ∧ s0.slewing_delay ≠ target_delay then
        { s0 with slewing_delay := 0 }
      else s0
    let s2 := { s1 with current_step := u32 (s1.current_step + 1) }
    if s2.speed = 0 then
      if target_delay > s2.first_delay then
        (s2, target_delay >>> 8)
      else
        let s3 := { s2 with delay := s2.first_delay, speed := 1 }
        (s3, s3.delay >>> 8)
    else
      let est_stop := u32 (st + s2.speed)
      let s3 :=
        if est_stop = target_step then
          s2
        else if est_stop > target_step then
          { slowdown s2 with slewing_delay := 0 }
        else if s2.slewing_delay = 0 ∧ s2.delay < target_delay then
          let s' := slowdown s2
          if s'.delay ≥ target_delay then { s' with slewing_delay := target_delay } else s'
        else if s2.slewing_delay = 0 ∧ s2.delay > target_delay then
          let s' := speedup s2
          if s'.delay ≤ target_delay then { s' with slewing_delay := target_delay } else s'
        else s2
      let d := if s3.slewing_delay ≠ 0 then s3.slewing_delay else s3.delay
      (s3, d >>> 8)

/-- `impl Iterator for Stepgen` — `next` maps the stop signal to
`none`. -/
def next (s : Stepgen) : Stepgen × Option Nat :=
  let r := next_delay s
  if r.2 = 0 then (r.1, none) else (r.1, some r.2)

/-- Iterate the delay producer `n` times, keeping only the state. -/
def runN : Nat → Stepgen → Stepgen
  | 0, s => s
  | n + 1, s => runN n (next_delay s).1

/-- Iterate the delay producer `n` times; the boolean records whether
every produced value was a non-stop delay. -/
def runCheck : Nat → Stepgen → Stepgen × Bool
  | 0, s => (s, true)
  | n + 1, s =>
    let r := next_delay s
    if r.2 = 0 then (r.1, false)
    else
      let rest := runCheck n r.1
      (rest.1, rest.2)

end Stepgen

/-- One call of the public API, used to describe reachable states. -/
inductive Op where
  | setAcc (a : Nat)
  | setSpeed (v : Nat)
  | setStep (n : Nat)
  | step
  deriving DecidableEq

/-- Apply one public-API call to a state (configuration failures leave
the state as returned by the operation). -/
def applyOp (s : Stepgen) : Op → Stepgen
  | .setAcc a => (s.set_acceleration a).1
  | .setSpeed v => (s.set_target_speed v).1
  | .setStep n => (s.set_target_step n).1
  | .step => (s.next_delay).1

/-- Run a sequence of public-API calls from a state. -/
def runOps (s : Stepgen) (ops : List Op) : Stepgen := ops.foldl applyOp s

/-- Mirror of the branch structure of `Stepgen.next_delay`: `true`
exactly when the call executes one of the two `self.slowdown()`
call sites. -/
def nextInvokesSlowdown (s0 : Stepgen) : Bool :=
  let target_step := s0.target_step
  let target_delay := s0.target_delay
  let st := s0.current_step
  if target_step ≤ st ∧ s0.speed ≤ 1 then false
  else
    let s1 := if s0.slewing_delay ≠ 0 ∧ s0.slewing_delay ≠ target_delay then
        { s0 with slewing_delay := 0 }
      else s0
    let s2 := { s1 with current_step := u32 (s1.current_step + 1) }
    if s2.speed = 0 then false
    else
      let est_stop := u32 (st + s2.speed)
      if est_stop = target_step then false
      else if est_stop > target_step then true
      else if s2.slewing_delay = 0 ∧ s2.delay < target_delay then true
      else false

/-- The delay `current_speed` derives its estimate from: the cruise
delay while slewing, the ramp delay otherwise. -/
def activeDelay (s : Stepgen) : Nat :=
  if s.slewing_delay ≠ 0 then s.slewing_delay else s.delay

/-- Well-formedness bounds satisfied by configured, in-range states:
configured delays are at least one tick (`2^8` in 16.16 format), the
acceleration-step counter is below `2^16` (the step budget of a
16-bit-delay ramp) and the ramp delay, while ramping, is at least one
tick and below `2863311531 = ⌈2^33/3⌉`.  Below that threshold a
single deceleration step cannot wrap the `u32` delay — its increment
is at most `⌊(2^32-1)/3⌋ = 1431655765` — so the bound admits every
ramp delay with integral part up to `43690` ticks, including all
states of the library's doc-test scenario (first delay `1981260800`)
and slow configurations such as acceleration `500<<8` at 1 MHz
(first delay `2801925888`).  Above it the producer can really emit a
spurious stop: `slowdown` at `delay = 3435973837`, `speed = 2` wraps
the delay to `0`. -/
def Sane (s : Stepgen) : Prop :=
  256 ≤ s.first_delay ∧ 256 ≤ s.target_delay ∧ s.speed < 65536 ∧
    (s.speed ≠ 0 → 256 ≤ s.delay ∧ s.delay < 2863311531)

instance (s : Stepgen) : Decidable (Sane s) := by
  unfold Sane; infer_instance

/-- The state reached in the library's doc-test scenario after
configuring acceleration `1000<<8`. -/
def scenarioA1 : Stepgen × SgResult := (Stepgen.new 1000000).set_acceleration (1000 <<< 8)

/-- ... then target speed `800<<8`. -/
def scenarioA2 : Stepgen × SgResult := scenarioA1.1.set_target_speed (800 <<< 8)

/-- ... then target step `1000`. -/
def scenarioA3 : Stepgen × SgResult := scenarioA2.1.set_target_step 1000

/-- A mid-ramp state whose projected stop step, computed from the
post-increment step counter, equals the target step, while the
source's `est_stop` (entry step + speed) does not. -/
def c3state : Stepgen :=
  { current_step := 1, speed := 2, delay := 100000, slewing_delay := 0,
    ticks_per_second := 1000000, first_delay := 120000, target_step := 4,
    target_delay := 70000 }

/-- A mid-ramp state whose `est_stop` (entry step + speed) equals the
target step, so the producer holds the delay. -/
def c3holdState : Stepgen :=
  { current_step := 1, speed := 2, delay := 100000, slewing_delay := 0,
    ticks_per_second := 1000000, first_delay := 120000, target_step := 3,
    target_delay := 70000 }

/-- State reached through the public API: configure, run to the target
step (2 steps), then observe the stop; the machine is at rest but the
last ramp delay is still stored. -/
def c9state : Stepgen :=
  runOps (Stepgen.new 1000000)
    [.setAcc 256000, .setSpeed 204800, .setStep 2, .step, .step, .step]

/-- State reached through the public API: accelerate one step (speed
becomes 1), then lower the target speed below the current speed; the
next producer call enters the `slowdown` branch with `speed == 1`. -/
def c10state : Stepgen :=
  runOps (Stepgen.new 1000000)
    [.setAcc 256000, .setSpeed 204800, .setStep 1000000, .step, .setSpeed 5120]

/-- A configured running state at its stop point (`current_step ≥
target_step`, `speed ≤ 1`), used as a concrete witness. -/
def stopState : Stepgen :=
  { current_step := 5, speed := 1, delay := 1000000, slewing_delay := 0,
    ticks_per_second := 1000000, first_delay := 300000, target_step := 3,
    target_delay := 80000 }

theorem u32_id {n : Nat} (h : n < 4294967296) : u32 n = n := Nat.mod_eq_of_lt h

theorem u32sub_id {a b : Nat} (hb : b ≤ a) (ha : a < 4294967296) : u32sub a b = a - b := by
  unfold u32sub
  omega

theorem shiftRight8_eq (d : Nat) : d >>> 8 = d / 256 := by
  rw [Nat.shiftRight_eq_div_pow]

theorem shiftRight8_ne_zero {d : Nat} (h : 256 ≤ d) : d >>> 8 ≠ 0 := by
  rw [shiftRight8_eq]
  omega

theorem sqrtLoop_spec (k : Nat) :
    ∀ p n : Nat, p * p ≤ n → n < (p + 2 ^ (k + 1)) * (p + 2 ^ (k + 1)) →
      ∃ r : Nat, sqrtLoop (k + 1) (n - p * p) (p * 2 ^ (k + 1)) (4 ^ k) = (n - r * r, r) ∧
        r * r ≤ n ∧ n < (r + 1) * (r + 1) := by
  induction k with
  | zero =>
    intro p n h1 h2
    norm_num at h2 ⊢
    have hsq : (p + 1) * (p + 1) = p * p + (p * 2 + 1) := by ring
    by_cases hg : p * 2 + 1 ≤ n - p * p
    · refine ⟨p + 1, ?_, by omega, ?_⟩
      · simp only [sqrtLoop, one_ne_zero, if_false, if_pos hg]
        have e1 : n - p * p - (p * 2 + 1) = n - (p + 1) * (p + 1) := by omega
        have e2 : p * 2 / 2 + 1 = p + 1 := by omega
        rw [e1, e2]
      · have hsq2 : (p + 1 + 1) * (p + 1 + 1) = (p + 2) * (p + 2) := by ring
        omega
    · refine ⟨p, ?_, h1, by omega⟩
      simp only [sqrtLoop, one_ne_zero, if_false, if_neg hg]
      have e2 : p * 2 / 2 = p := by omega
      rw [e2]
  | succ k ih =>
    intro p n h1 h2
    have ha1 : (2 : Nat) ^ (k + 1) * 2 ^ (k + 1) = 4 ^ (k + 1) := by
      rw [← pow_add, show (4 : Nat) = 2 ^ 2 from rfl, ← pow_mul]
      congr 1
      ring
    have ha2 : (2 : Nat) ^ (k + 2) = 2 ^ (k + 1) * 2 := by
      rw [pow_succ]
    have hsq : (p + 2 ^ (k + 1)) * (p + 2 ^ (k + 1))
        = p * p + (p * 2 ^ (k + 2) + 4 ^ (k + 1)) := by
      rw [← ha1, ha2]
      ring
    have e3 : (4 : Nat) ^ (k + 1) / 4 = 4 ^ k := by
      rw [pow_succ]
      exact Nat.mul_div_cancel _ (by norm_num)
    have e2 : p * 2 ^ (k + 2) / 2 = p * 2 ^ (k + 1) := by
      rw [ha2, ← mul_assoc]
      exact Nat.mul_div_cancel _ (by norm_num)
    have hq2 : (4 : Nat) ^ (k + 1) ≠ 0 := by positivity
    by_cases hg : p * 2 ^ (k + 2) + 4 ^ (k + 1) ≤ n - p * p
    · have h1' : (p + 2 ^ (k + 1)) * (p + 2 ^ (k + 1)) ≤ n := by omega
      have h2' : n < (p + 2 ^ (k + 1) + 2 ^ (k + 1)) * (p + 2 ^ (k + 1) + 2 ^ (k + 1)) := by
        have : p + 2 ^ (k + 1) + 2 ^ (k + 1) = p + 2 ^ (k + 2) := by omega
        rw [this]
        exact h2
      obtain ⟨r, hr, hr1, hr2⟩ := ih (p + 2 ^ (k + 1)) n h1' h2'
      refine ⟨r, ?_, hr1, hr2⟩
      simp only [sqrtLoop, if_neg hq2, if_pos hg]
      have e1 : n - p * p - (p * 2 ^ (k + 2) + 4 ^ (k + 1))
          = n - (p + 2 ^ (k + 1)) * (p + 2 ^ (k + 1)) := by omega
      have e4 : p * 2 ^ (k + 2) / 2 + 4 ^ (k + 1) = (p + 2 ^ (k + 1)) * 2 ^ (k + 1) := by
        rw [e2, ← ha1]
        ring
      rw [e1, e4, e3]
      exact hr
    · have h2' : n < (p + 2 ^ (k + 1)) * (p + 2 ^ (k + 1)) := by omega
      obtain ⟨r, hr, hr1, hr2⟩ := ih p n h1 h2'
      refine ⟨r, ?_, hr1, hr2⟩
      simp only [sqrtLoop, if_neg hq2, if_neg hg]
      rw [e2, e3]
      exact hr

/-- **C4.** For every 64-bit input, `u64sqrt` returns the nearest
integer to the real square root (a tie, which would need `4*x` to be
an odd square, cannot occur; the returned `r` always satisfies
`(2r-1)^2 < 4x < (2r+1)^2` apart from `r = 0`), and it reproduces the
seven reference values of the test suite exactly. -/
theorem u64sqrt_nearest :
    (∀ n : Nat, n < 2 ^ 64 →
      4 * n < (2 * u64sqrt n + 1) * (2 * u64sqrt n + 1) ∧
        (u64sqrt n = 0 ∨ (2 * u64sqrt n - 1) * (2 * u64sqrt n - 1) < 4 * n)) ∧
    u64sqrt 0 = 0 ∧ u64sqrt 1 = 1 ∧ u64sqrt 4 = 2 ∧ u64sqrt 10 = 3 ∧ u64sqrt 15 = 4 ∧
    u64sqrt 0x4000000000000000 = 0x80000000 ∧
    u64sqrt 0xFFFFFFFFFFFFFFFF = 0x100000000 := by
  constructor
  · intro n hn
    obtain ⟨r, hr, h1, h2⟩ := sqrtLoop_spec 31 0 n (by simp) (by norm_num; exact hn)
    norm_num at hr
    have hu : u64sqrt n = if r < n - r * r then r + 1 else r := by
      unfold u64sqrt
      rw [show (2 : Nat) ^ 62 = 4611686018427387904 by norm_num, hr]
    have e2 : (r + 1) * (r + 1) = r * r + 2 * r + 1 := by ring
    rw [hu]
    by_cases hlt : r < n - r * r
    · rw [if_pos hlt]
      have e1 : (2 * (r + 1) + 1) * (2 * (r + 1) + 1) = 4 * (r * r) + 12 * r + 9 := by ring
      have e3 : 2 * (r + 1) - 1 = 2 * r + 1 := by omega
      have e4 : (2 * r + 1) * (2 * r + 1) = 4 * (r * r) + 4 * r + 1 := by ring
      rw [e1, e3, e4]
      omega
    · rw [if_neg hlt]
      have e1 : (2 * r + 1) * (2 * r + 1) = 4 * (r * r) + 4 * r + 1 := by ring
      rcases Nat.eq_zero_or_pos r with h0 | hpos
      · subst h0
        norm_num at hlt ⊢
        omega
      · have e3 : 2 * r - 1 = 2 * (r - 1) + 1 := by omega
        have e4 : (2 * (r - 1) + 1) * (2 * (r - 1) + 1) = 4 * ((r - 1) * (r - 1)) + 4 * (r - 1) + 1 := by ring
        have e5 : (r - 1 + 1) * (r - 1 + 1) = (r - 1) * (r - 1) + 2 * (r - 1) + 1 := by ring
        have e6 : r - 1 + 1 = r := by omega
        rw [e1, e3, e4]
        rw [e6] at e5
        omega
  · refine ⟨by decide, by decide, by decide, by decide, by decide, ?_, ?_⟩ <;> decide

/-- Witness for `u64sqrt_nearest` at `n = 10`. -/
theorem u64sqrt_nearest_witness :
    (10 : Nat) < 2 ^ 64 ∧
      (4 * 10 < (2 * u64sqrt 10 + 1) * (2 * u64sqrt 10 + 1) ∧
        (u64sqrt 10 = 0 ∨ (2 * u64sqrt 10 - 1) * (2 * u64sqrt 10 - 1) < 4 * 10)) :=
  ⟨by norm_num, u64sqrt_nearest.1 10 (by norm_num)⟩

/-- **C6.** `set_target_speed` fails `TooSlow` iff the speed is zero
or the integral part of the computed delay `ticks_per_second/speed`
(computed as `(ticks_per_second << 16) / speed`, a 16.8 value) does
not fit in 16 bits; it fails `TooFast` iff it does not fail `TooSlow`
and the delay is at or below the 30-tick floor; otherwise it succeeds
and stores the delay shifted to 16.16 format.  Scenario B and C of the
specification are the two closing conjuncts. -/
theorem set_target_speed_spec :
    (∀ (s : Stepgen) (v : Nat),
      ((s.set_target_speed v).2 = .Err .TooSlow ↔
        v = 0 ∨ ((s.ticks_per_second <<< 16) / v) >>> 24 ≠ 0) ∧
      ((s.set_target_speed v).2 = .Err .TooFast ↔
        ¬(v = 0 ∨ ((s.ticks_per_second <<< 16) / v) >>> 24 ≠ 0) ∧
          (s.ticks_per_second <<< 16) / v ≤ FASTEST_DELAY * 256) ∧
      (¬(v = 0 ∨ ((s.ticks_per_second <<< 16) / v) >>> 24 ≠ 0) →
        ¬((s.ticks_per_second <<< 16) / v ≤ FASTEST_DELAY * 256) →
        s.set_target_speed v =
          ({ s with target_delay := ((s.ticks_per_second <<< 16) / v) <<< 8 }, .Ok))) ∧
    ((Stepgen.new 1000000).set_target_speed (1 <<< 8)).2 = .Err .TooSlow ∧
    ((Stepgen.new 1000000).set_target_speed (1000000 <<< 8)).2 = .Err .TooFast := by
  refine ⟨fun s v => ?_, by decide, by decide⟩
  by_cases h1 : v = 0
  · simp [Stepgen.set_target_speed, h1]
  · by_cases h2 : ((s.ticks_per_second <<< 16) / v) >>> 24 ≠ 0
    · simp [Stepgen.set_target_speed, h1, h2]
    · by_cases h3 : (s.ticks_per_second <<< 16) / v ≤ FASTEST_DELAY * 256
      · refine ⟨?_, ?_, ?_⟩
        · simp [Stepgen.set_target_speed, h1, h2, h3]
        · simp [Stepgen.set_target_speed, h1, h2, h3]
        · intro _ hc
          exact absurd h3 hc
      · have hlt : (s.ticks_per_second <<< 16) / v < 16777216 := by
          have := h2
          rw [Nat.shiftRight_eq_div_pow] at this
          simp only [ne_eq, not_not] at this
          omega
        have hmod : (s.ticks_per_second <<< 16) / v % 4294967296
            = (s.ticks_per_second <<< 16) / v := Nat.mod_eq_of_lt (by omega)
        have hushift : u32 (((s.ticks_per_second <<< 16) / v) <<< 8)
            = ((s.ticks_per_second <<< 16) / v) <<< 8 := by
          apply u32_id
          rw [Nat.shiftLeft_eq]
          norm_num
          omega
        refine ⟨?_, ?_, ?_⟩
        · simp [Stepgen.set_target_speed, h1, h2, h3]
        · simp [Stepgen.set_target_speed, h1, h2, h3]
        · intro _ _
          simp [Stepgen.set_target_speed, h1, h2, h3, hmod, hushift]

/-- Witness for `set_target_speed_spec`: the success conjunct applied
at speed `800<<8` on a 1 MHz machine. -/
theorem set_target_speed_spec_witness :
    ¬((204800 : Nat) = 0 ∨ (((Stepgen.new 1000000).ticks_per_second <<< 16) / 204800) >>> 24 ≠ 0) ∧
    ¬(((Stepgen.new 1000000).ticks_per_second <<< 16) / 204800 ≤ FASTEST_DELAY * 256) ∧
    (Stepgen.new 1000000).set_target_speed 204800 =
      ({ Stepgen.new 1000000 with
          target_delay := (((Stepgen.new 1000000).ticks_per_second <<< 16) / 204800) <<< 8 },
        .Ok) :=
  ⟨by decide, by decide,
    (set_target_speed_spec.1 (Stepgen.new 1000000) 204800).2.2 (by decide) (by decide)⟩

/-- **C7.** Frame conditions of the three configuration operations: on
success each writes only its own field (the state equals the input
state with only that field replaced), and on error the state is
returned unchanged.  For `set_acceleration` a nonzero argument is
assumed, since Rust panics (divides by zero) on zero acceleration. -/
theorem config_frame :
    ∀ (s : Stepgen) (a v n : Nat),
      (a ≠ 0 →
        (s.set_acceleration a).1
            = { s with first_delay := (s.set_acceleration a).1.first_delay } ∧
          ((s.set_acceleration a).2 ≠ .Ok → (s.set_acceleration a).1 = s)) ∧
      ((s.set_target_speed v).1
          = { s with target_delay := (s.set_target_speed v).1.target_delay } ∧
        ((s.set_target_speed v).2 ≠ .Ok → (s.set_target_speed v).1 = s)) ∧
      ((s.set_target_step n).1
          = { s with target_step := (s.set_target_step n).1.target_step } ∧
        ((s.set_target_step n).2 ≠ .Ok → (s.set_target_step n).1 = s)) := by
  intro s a v n
  refine ⟨fun _ => ?_, ?_, ?_⟩
  · simp only [Stepgen.set_acceleration]
    split_ifs <;> refine ⟨rfl, fun h => ?_⟩ <;> first | rfl | simp at h
  · simp only [Stepgen.set_target_speed]
    split_ifs <;> refine ⟨rfl, fun h => ?_⟩ <;> first | rfl | simp at h
  · simp only [Stepgen.set_target_step]
    split_ifs <;> refine ⟨rfl, fun h => ?_⟩ <;> first | rfl | simp at h

/-- Witness for `config_frame` at a concrete state and arguments
(acceleration `1000<<8`, speed `800<<8`, step `1000` on a fresh 1 MHz
machine). -/
theorem config_frame_witness :
    ((Stepgen.new 1000000).set_acceleration 256000).1
        = { Stepgen.new 1000000 with
            first_delay := ((Stepgen.new 1000000).set_acceleration 256000).1.first_delay } :=
  ((config_frame (Stepgen.new 1000000) 256000 204800 1000).1 (by decide)).1

/-- **C8.** `set_target_step` fails `SpeedAccelerationNotSet` iff
`target_delay` or `first_delay` is still unconfigured (zero);
otherwise it stores the step unconditionally — for every argument,
whether below, at or above `current_step`. -/
theorem set_target_step_spec :
    ∀ (s : Stepgen) (n : Nat),
      ((s.set_target_step n).2 = .Err .SpeedAccelerationNotSet ↔
        s.target_delay = 0 ∨ s.first_delay = 0) ∧
      (¬(s.target_delay = 0 ∨ s.first_delay = 0) →
        s.set_target_step n = ({ s with target_step := n }, .Ok)) := by
  intro s n
  by_cases h : s.target_delay = 0 ∨ s.first_delay = 0
  · simp [Stepgen.set_target_step, h]
  · simp [Stepgen.set_target_step, h]

/-- Witness for `set_target_step_spec`: a configured state accepts a
target step below the current step. -/
theorem set_target_step_spec_witness :
    ¬(stopState.target_delay = 0 ∨ stopState.first_delay = 0) ∧
    stopState.set_target_step 2 = ({ stopState with target_step := 2 }, .Ok) :=
  ⟨by decide, (set_target_step_spec stopState 2).2 (by decide)⟩

/-- **C5.** Scenario A: on a 1 MHz machine, after
`set_acceleration (1000<<8)`, `set_target_speed (800<<8)` and
`set_target_step 1000` all succeed, the first 99 producer calls all
yield non-stop delays, after which `current_step = 99` and
`current_speed() = 113621`, and the 100th produced delay `d` satisfies
`(d + 128) >> 8 = 2242`. -/
theorem scenario_a :
    scenarioA1.2 = .Ok ∧ scenarioA2.2 = .Ok ∧ scenarioA3.2 = .Ok ∧
    (Stepgen.runCheck 99 scenarioA3.1).2 = true ∧
    (Stepgen.runCheck 99 scenarioA3.1).1.current_step = 99 ∧
    (Stepgen.runCheck 99 scenarioA3.1).1.current_speed = 113621 ∧
    ((Stepgen.next_delay (Stepgen.runCheck 99 scenarioA3.1).1).2 + 128) >>> 8 = 2242 := by
  refine ⟨by decide, by decide, by decide, ?_, ?_, ?_, ?_⟩ <;> decide

/-- **C3, counterexample.** In `c3state` the producer call neither
stops nor starts from rest, and the projected stop step computed from
the post-increment step counter, `(current_step + 1) + speed`, equals
`target_step` — yet the call does not hold the delay unchanged (it
applies the acceleration recurrence, `100000 → 77778`), because the
source computes `est_stop` from the entry value of `current_step`,
before the increment. -/
theorem est_stop_post_increment_cex :
    c3state.speed ≠ 0 ∧
    ¬(c3state.target_step ≤ c3state.current_step ∧ c3state.speed ≤ 1) ∧
    (c3state.current_step + 1) + c3state.speed = c3state.target_step ∧
    (Stepgen.next_delay c3state).1.delay ≠ c3state.delay := by
  decide

/-- **C3, amended.** On a call that neither stops nor starts from
rest, the producer increments `current_step` and computes the
projected stop step from the *entry* step counter:
`est_stop = st + speed` with `st` captured before the increment.  If
`est_stop = target_step` the delay and speed are held unchanged; if
`est_stop > target_step` it applies the deceleration recurrence and
forces `slewing_delay` to `0`. -/
theorem est_stop_entry_step (s : Stepgen)
    (hsp : s.speed ≠ 0)
    (hc : ¬(s.target_step ≤ s.current_step ∧ s.speed ≤ 1))
    (hw : s.current_step + s.speed < 4294967296)
    (hw1 : s.current_step + 1 < 4294967296) :
    (Stepgen.next_delay s).1.current_step = s.current_step + 1 ∧
    (s.current_step + s.speed = s.target_step →
      (Stepgen.next_delay s).1.delay = s.delay ∧
        (Stepgen.next_delay s).1.speed = s.speed) ∧
    (s.target_step < s.current_step + s.speed →
      (Stepgen.next_delay s).1.delay = (Stepgen.slowdown s).delay ∧
        (Stepgen.next_delay s).1.speed = (Stepgen.slowdown s).speed ∧
        (Stepgen.next_delay s).1.slewing_delay = 0) := by
  have hu : u32 (s.current_step + s.speed) = s.current_step + s.speed := u32_id hw
  simp only [Stepgen.next_delay, if_neg hc, apply_ite Stepgen.speed,
    apply_ite Stepgen.delay, apply_ite Stepgen.current_step,
    apply_ite Stepgen.slewing_delay, apply_ite Stepgen.target_delay, ite_self]
  simp only [hsp, if_false, ite_false, hu]
  refine ⟨?_, ?_, ?_⟩
  · split_ifs <;>
      simp [Stepgen.slowdown, Stepgen.speedup, u32_id hw1, apply_ite Stepgen.current_step]
  · intro heq
    rw [if_pos heq]
    split_ifs <;> simp
  · intro hgt
    have hne : ¬(s.current_step + s.speed = s.target_step) := by omega
    rw [if_neg hne, if_pos hgt]
    split_ifs <;> simp [Stepgen.slowdown]

/-- Witness for `est_stop_entry_step` at `c3holdState`, where
`est_stop` equals the target step and the delay is held. -/
theorem est_stop_entry_step_witness :
    (Stepgen.next_delay c3holdState).1.current_step = c3holdState.current_step + 1 ∧
    (Stepgen.next_delay c3holdState).1.delay = c3holdState.delay ∧
    (Stepgen.next_delay c3holdState).1.speed = c3holdState.speed :=
  ⟨(est_stop_entry_step c3holdState (by decide) (by decide) (by decide) (by decide)).1,
    (est_stop_entry_step c3holdState (by decide) (by decide) (by decide) (by decide)).2.1
      (by decide)⟩

/-- **C9, counterexample.** `c9state` is reached through the public
API (configure a 1 MHz machine, run to the 2-step target, observe the
stop).  It is at rest (`speed = 0`), yet `current_speed()` returns
`8468`, not `0`: the last ramp delay is still stored in `delay` and
the accessor derives a speed from it. -/
theorem current_speed_rest_cex :
    c9state.speed = 0 ∧ Stepgen.current_speed c9state ≠ 0 := by
  decide

/-- **C9, amended.** `current_speed()` derives its estimate from
whichever delay is active — `slewing_delay` when cruising
(`slewing_delay ≠ 0`), else `delay` — as
`(ticks_per_second << 16) / (active_delay >> 8)` (24.8 format), and
returns `0` exactly when the active delay is below one tick
(`active_delay >> 8 = 0`), as on a freshly constructed machine — not
whenever the machine is at rest (`speed = 0`). -/
theorem current_speed_active_delay :
    ∀ (s : Stepgen) (t : Nat),
      (activeDelay s >>> 8 ≠ 0 →
        Stepgen.current_speed s
          = u32 ((s.ticks_per_second <<< 16) / (activeDelay s >>> 8))) ∧
      (activeDelay s >>> 8 = 0 → Stepgen.current_speed s = 0) ∧
      Stepgen.current_speed (Stepgen.new t) = 0 := by
  intro s t
  refine ⟨fun h => ?_, fun h => ?_, by simp [Stepgen.current_speed, Stepgen.new]⟩
  · simp only [Stepgen.current_speed, activeDelay] at h ⊢
    rw [if_pos h]
  · simp only [Stepgen.current_speed, activeDelay] at h ⊢
    rw [if_neg (by simpa using h)]

/-- Witness for `current_speed_active_delay` at `stopState` (active
delay `1000000`, i.e. `3906` integral ticks). -/
theorem current_speed_active_delay_witness :
    Stepgen.current_speed stopState
      = u32 ((stopState.ticks_per_second <<< 16) / (activeDelay stopState >>> 8)) :=
  (current_speed_active_delay stopState 0).1 (by decide)

/-- **C10, counterexample.** `c10state` is reached through the public
API: configure a 1 MHz machine, take one acceleration step (`speed`
becomes `1`), then lower the target speed below the current speed.
The next producer call executes `slowdown` with `speed = 1` — not
`≥ 2` — so the decremented speed is `0` and the `u32` divisor
`4*speed - 1` wraps to `4294967295`. -/
theorem slowdown_speed1_reachable_cex :
    c10state.speed = 1 ∧ nextInvokesSlowdown c10state = true ∧
    u32sub (u32 (4 * u32sub c10state.speed 1)) 1 = 4294967295 := by
  decide

/-- **C10, amended.** Whenever a producer call executes `slowdown`,
the entry speed is at least `1` (the `speed == 0` branch returns
first), so the `u32` decrement `speed - 1` itself cannot underflow,
and the call's resulting speed is the wrapped `speed - 1`; the
stronger guarantees claimed — `speed ≥ 2` at every `slowdown` call
and no wrapping in `4*speed - 1` — do not hold for every reachable
state (see the counterexample). -/
theorem slowdown_entry_speed_pos :
    ∀ s : Stepgen, nextInvokesSlowdown s = true →
      1 ≤ s.speed ∧ (Stepgen.next_delay s).1.speed = u32sub s.speed 1 := by
  intro s h
  simp only [nextInvokesSlowdown] at h
  by_cases hc : s.target_step ≤ s.current_step ∧ s.speed ≤ 1
  · rw [if_pos hc] at h
    exact absurd h (by decide)
  · rw [if_neg hc] at h
    constructor
    · by_contra hlt
      have hz : s.speed = 0 := by omega
      simp [hz, apply_ite Stepgen.speed, ite_self] at h
    · simp only [Stepgen.next_delay, if_neg hc, apply_ite Stepgen.speed,
        apply_ite Stepgen.delay, apply_ite Stepgen.current_step,
        apply_ite Stepgen.slewing_delay, ite_self] at h ⊢
      by_cases hA : s.speed = 0
      · rw [if_pos hA] at h
        exact absurd h (by decide)
      · rw [if_neg hA] at h ⊢
        by_cases hB : u32 (s.current_step + s.speed) = s.target_step
        · rw [if_pos hB] at h
          exact absurd h (by decide)
        · rw [if_neg hB] at h ⊢
          by_cases hC : u32 (s.current_step + s.speed) > s.target_step
          · rw [if_pos hC]
            simp [Stepgen.slowdown, apply_ite Stepgen.speed, apply_ite Stepgen.delay,
              ite_self]
          · rw [if_neg hC] at h ⊢
            by_cases hD : (if s.slewing_delay ≠ 0 ∧ s.slewing_delay ≠ s.target_delay then 0
                else s.slewing_delay) = 0 ∧ s.delay < s.target_delay
            · rw [if_pos hD]
              split_ifs <;>
                simp [Stepgen.slowdown, apply_ite Stepgen.speed, apply_ite Stepgen.delay,
                  ite_self]
            · rw [if_neg hD] at h
              exact absurd h (by decide)

/-- Witness for `slowdown_entry_speed_pos` at the reachable state
`c10state`. -/
theorem slowdown_entry_speed_pos_witness :
    1 ≤ c10state.speed ∧
    (Stepgen.next_delay c10state).1.speed = u32sub c10state.speed 1 :=
  slowdown_entry_speed_pos c10state (by decide)

theorem div_half_denom_le {d denom : Nat} (h5 : 5 ≤ denom) :
    (2 * d + denom / 2) / denom ≤ d := by
  have h1 : denom / 2 < denom := Nat.div_lt_self (by omega) (by omega)
  have h2 : 5 * d ≤ denom * d := Nat.mul_le_mul_right d h5
  have h3 : 2 * d + denom / 2 < (d + 1) * denom := by
    have h4 : (d + 1) * denom = denom * d + denom := by ring
    omega
  have h6 := (Nat.div_lt_iff_lt_mul (show 0 < denom by omega)).mpr h3
  omega

/-- **C1.** The ramp recurrences are exactly the claimed integer
computations on the 16.16 delay, with round-half-up implemented by
adding half the divisor before truncating division.  The only side
conditions are the exact no-wrap conditions of the `u32` numerator
`2*delay + divisor/2 < 2^32` (so every delay below `2^31 - 2^17` is
covered, in particular the doc-test scenario's ramp delays
`1981260800` and `1188756480`), `speed < 2^16`, and the entry speeds
at which the producer invokes the recurrences (`speed ≥ 1` for
`speedup`, `speed ≥ 2` for `slowdown`).  Each producer call applies
at most one recurrence: the post-call delay is always the entry
delay, the first delay, one `speedup`, or one `slowdown` of the
entry delay. -/
theorem speedup_slowdown_recurrence :
    ∀ s : Stepgen,
      (1 ≤ s.speed → s.speed < 65536 →
        2 * s.delay + (4 * s.speed + 1) / 2 < 4294967296 →
        Stepgen.speedup s = { s with
          delay := s.delay - (2 * s.delay + (4 * s.speed + 1) / 2) / (4 * s.speed + 1),
          speed := s.speed + 1 }) ∧
      (2 ≤ s.speed → s.speed < 65536 →
        2 * s.delay + (4 * (s.speed - 1) - 1) / 2 < 4294967296 →
        Stepgen.slowdown s = { s with
          speed := s.speed - 1,
          delay := s.delay
            + (2 * s.delay + (4 * (s.speed - 1) - 1) / 2) / (4 * (s.speed - 1) - 1) }) ∧
      ((Stepgen.next_delay s).1.delay = s.delay ∨
        (Stepgen.next_delay s).1.delay = s.first_delay ∨
        (Stepgen.next_delay s).1.delay = (Stepgen.speedup s).delay ∨
        (Stepgen.next_delay s).1.delay = (Stepgen.slowdown s).delay) := by
  intro s
  refine ⟨fun h1 h2 h3 => ?_, fun h1 h2 h3 => ?_, ?_⟩
  · have hden : u32 (4 * s.speed + 1) = 4 * s.speed + 1 := u32_id (by omega)
    have hsum : u32 (2 * s.delay + (4 * s.speed + 1) / 2)
        = 2 * s.delay + (4 * s.speed + 1) / 2 := u32_id h3
    have hq : (2 * s.delay + (4 * s.speed + 1) / 2) / (4 * s.speed + 1) ≤ s.delay :=
      div_half_denom_le (by omega)
    have hsub : u32sub s.delay ((2 * s.delay + (4 * s.speed + 1) / 2) / (4 * s.speed + 1))
        = s.delay - (2 * s.delay + (4 * s.speed + 1) / 2) / (4 * s.speed + 1) :=
      u32sub_id hq (by omega)
    have hsp1 : u32 (s.speed + 1) = s.speed + 1 := u32_id (by omega)
    simp only [Stepgen.speedup]
    rw [hden, hsum, hsub, hsp1]
  · have e1 : u32sub s.speed 1 = s.speed - 1 := u32sub_id (by omega) (by omega)
    have e2 : u32 (4 * (s.speed - 1)) = 4 * (s.speed - 1) := u32_id (by omega)
    have e3 : u32sub (4 * (s.speed - 1)) 1 = 4 * (s.speed - 1) - 1 :=
      u32sub_id (by omega) (by omega)
    have hsum : u32 (2 * s.delay + (4 * (s.speed - 1) - 1) / 2)
        = 2 * s.delay + (4 * (s.speed - 1) - 1) / 2 := u32_id h3
    have hq : (2 * s.delay + (4 * (s.speed - 1) - 1) / 2) / (4 * (s.speed - 1) - 1)
        ≤ (2 * s.delay + (4 * (s.speed - 1) - 1) / 2) / 3 :=
      Nat.div_le_div_left (by omega) (by norm_num)
    have hfin : u32 (s.delay
          + (2 * s.delay + (4 * (s.speed - 1) - 1) / 2) / (4 * (s.speed - 1) - 1))
        = s.delay + (2 * s.delay + (4 * (s.speed - 1) - 1) / 2) / (4 * (s.speed - 1) - 1) :=
      u32_id (by omega)
    simp only [Stepgen.slowdown]
    rw [e1, e2, e3, hsum, hfin]
  · by_cases hc : s.target_step ≤ s.current_step ∧ s.speed ≤ 1
    · left
      simp only [Stepgen.next_delay, if_pos hc]
    · simp only [Stepgen.next_delay, if_neg hc, apply_ite Stepgen.speed,
        apply_ite Stepgen.delay, apply_ite Stepgen.current_step,
        apply_ite Stepgen.slewing_delay, apply_ite Stepgen.first_delay, ite_self]
      by_cases hA : s.speed = 0
      · rw [if_pos hA]
        by_cases hF : s.target_delay > s.first_delay
        · rw [if_pos hF]
          left
          rfl
        · rw [if_neg hF]
          right; left
          rfl
      · rw [if_neg hA]
        by_cases hB : u32 (s.current_step + s.speed) = s.target_step
        · rw [if_pos hB]
          left
          rfl
        · rw [if_neg hB]
          by_cases hC : u32 (s.current_step + s.speed) > s.target_step
          · rw [if_pos hC]
            right; right; right
            simp only [Stepgen.slowdown, apply_ite Stepgen.delay,
              apply_ite Stepgen.speed, ite_self]
          · rw [if_neg hC]
            by_cases hD : (if s.slewing_delay ≠ 0 ∧ s.slewing_delay ≠ s.target_delay then 0
                else s.slewing_delay) = 0 ∧ s.delay < s.target_delay
            · rw [if_pos hD]
              right; right; right
              simp only [Stepgen.slowdown, apply_ite Stepgen.delay,
                apply_ite Stepgen.speed, apply_ite Stepgen.slewing_delay, ite_self]
            · rw [if_neg hD]
              by_cases hE : (if s.slewing_delay ≠ 0 ∧ s.slewing_delay ≠ s.target_delay then 0
                  else s.slewing_delay) = 0 ∧ s.delay > s.target_delay
              · rw [if_pos hE]
                right; right; left
                simp only [Stepgen.speedup, apply_ite Stepgen.delay,
                  apply_ite Stepgen.speed, apply_ite Stepgen.slewing_delay, ite_self]
              · rw [if_neg hE]
                left
                rfl

/-- Witness for `speedup_slowdown_recurrence`: the `speedup` conjunct
at the API-reachable state `c10state` (`speed = 1`,
`delay = 1981260800` — the doc-test scenario's first ramp delay,
above `2^30`), and the `slowdown` conjunct at `c3state`
(`speed = 2`, `delay = 100000`). -/
theorem speedup_slowdown_recurrence_witness :
    Stepgen.speedup c10state = { c10state with
      delay := c10state.delay
        - (2 * c10state.delay + (4 * c10state.speed + 1) / 2) / (4 * c10state.speed + 1),
      speed := c10state.speed + 1 } ∧
    Stepgen.slowdown c3state = { c3state with
      speed := c3state.speed - 1,
      delay := c3state.delay
        + (2 * c3state.delay + (4 * (c3state.speed - 1) - 1) / 2)
          / (4 * (c3state.speed - 1) - 1) } :=
  ⟨(speedup_slowdown_recurrence c10state).1 (by decide) (by decide) (by decide),
    (speedup_slowdown_recurrence c3state).2.1 (by decide) (by decide) (by decide)⟩

theorem slowdown_delay_le (d sp : Nat) (hd : d < 2863311531) (hs : sp < 65536) :
    d ≤ u32 (d + u32 (2 * d + u32sub (u32 (4 * u32sub sp 1)) 1 / 2)
          / u32sub (u32 (4 * u32sub sp 1)) 1) := by
  rcases Nat.lt_or_ge sp 2 with h2 | h2
  · interval_cases sp
    · have hd0 : u32sub (u32 (4 * u32sub 0 1)) 1 = 4294967291 := by decide
      rw [hd0]
      have hhalf : (4294967291 : Nat) / 2 = 2147483645 := by norm_num
      rw [hhalf]
      rcases Nat.lt_or_ge d 1073741826 with hlo | hhi
      · have hnum : u32 (2 * d + 2147483645) = 2 * d + 2147483645 := u32_id (by omega)
        rw [hnum]
        have hq2 : (2 * d + 2147483645) / 4294967291 < 2 :=
          (Nat.div_lt_iff_lt_mul (by norm_num)).mpr (by omega)
        have hres : u32 (d + (2 * d + 2147483645) / 4294967291)
            = d + (2 * d + 2147483645) / 4294967291 := u32_id (by omega)
        rw [hres]
        omega
      · have hnum : u32 (2 * d + 2147483645) = 2 * d + 2147483645 - 4294967296 := by
          unfold u32
          omega
        rw [hnum]
        have hq0 : (2 * d + 2147483645 - 4294967296) / 4294967291 = 0 :=
          Nat.div_eq_of_lt (by omega)
        rw [hq0]
        have hres : u32 (d + 0) = d + 0 := u32_id (by omega)
        rw [hres]
        omega
    · have hd1 : u32sub (u32 (4 * u32sub 1 1)) 1 = 4294967295 := by decide
      rw [hd1]
      have hhalf : (4294967295 : Nat) / 2 = 2147483647 := by norm_num
      rw [hhalf]
      rcases Nat.lt_or_ge d 1073741825 with hlo | hhi
      · have hnum : u32 (2 * d + 2147483647) = 2 * d + 2147483647 := u32_id (by omega)
        rw [hnum]
        have hq2 : (2 * d + 2147483647) / 4294967295 < 2 :=
          (Nat.div_lt_iff_lt_mul (by norm_num)).mpr (by omega)
        have hres : u32 (d + (2 * d + 2147483647) / 4294967295)
            = d + (2 * d + 2147483647) / 4294967295 := u32_id (by omega)
        rw [hres]
        omega
      · have hnum : u32 (2 * d + 2147483647) = 2 * d + 2147483647 - 4294967296 := by
          unfold u32
          omega
        rw [hnum]
        have hq0 : (2 * d + 2147483647 - 4294967296) / 4294967295 = 0 :=
          Nat.div_eq_of_lt (by omega)
        rw [hq0]
        have hres : u32 (d + 0) = d + 0 := u32_id (by omega)
        rw [hres]
        omega
  · have e1 : u32sub sp 1 = sp - 1 := u32sub_id (by omega) (by omega)
    have e2 : u32 (4 * (sp - 1)) = 4 * (sp - 1) := u32_id (by omega)
    have e3 : u32sub (4 * (sp - 1)) 1 = 4 * (sp - 1) - 1 := u32sub_id (by omega) (by omega)
    rw [e1, e2, e3]
    have h3 : 3 ≤ 4 * (sp - 1) - 1 := by omega
    have hq : u32 (2 * d + (4 * (sp - 1) - 1) / 2) / (4 * (sp - 1) - 1)
        ≤ u32 (2 * d + (4 * (sp - 1) - 1) / 2) / 3 := Nat.div_le_div_left h3 (by norm_num)
    have hq3 : u32 (2 * d + (4 * (sp - 1) - 1) / 2) / 3 ≤ 1431655765 := by
      simp only [u32]
      omega
    generalize hgen : u32 (2 * d + (4 * (sp - 1) - 1) / 2) / (4 * (sp - 1) - 1) = q at hq ⊢
    have hres : u32 (d + q) = d + q := u32_id (by omega)
    rw [hres]
    omega

theorem next_delay_running_ne_zero (s : Stepgen) (h : Sane s)
    (hc : ¬(s.target_step ≤ s.current_step ∧ s.speed ≤ 1)) :
    (Stepgen.next_delay s).2 ≠ 0 := by
  obtain ⟨hfd, htd, hsp, hdl⟩ := h
  have htd0 : s.target_delay ≠ 0 := by omega
  have hfd0 : s.first_delay ≠ 0 := by omega
  simp only [Stepgen.next_delay, if_neg hc, apply_ite Stepgen.speed,
    apply_ite Stepgen.delay, apply_ite Stepgen.current_step,
    apply_ite Stepgen.slewing_delay, apply_ite Stepgen.first_delay,
    apply_ite Stepgen.target_step, apply_ite Stepgen.target_delay,
    apply_ite Stepgen.ticks_per_second, apply_ite Prod.snd, ite_self,
    Stepgen.slowdown, Stepgen.speedup]
  by_cases hA : s.speed = 0
  · simp only [hA, eq_self_iff_true, if_true]
    split_ifs <;> (refine shiftRight8_ne_zero ?_; omega)
  · obtain ⟨hdlo, hdhi⟩ := hdl hA
    simp only [hA, if_false]
    have hb1 := slowdown_delay_le s.delay s.speed hdhi hsp
    split_ifs <;> (refine shiftRight8_ne_zero ?_; omega)

